import Mathlib

/-!
Shallow embedding of the condition-evaluation core of the Myrmidon rule
engine (monadicarts/myrmidon, C++17).

Translated source:
* `src/base_fact.cpp` and `src/core/rule.cpp` — `compare_any` /
  `are_anys_equal`, `Pattern::matches`, `TreeNode::evaluate`.  The two
  translation units contain two copies of the same algorithm for
  `Pattern::matches` and `TreeNode::evaluate`; where they differ textually
  (the OR node of `base_fact.cpp` restores `originalBindings` on total
  failure, the one of `rule.cpp` leaves `bindings` untouched) the observable
  behaviour is identical because every child evaluates against a copy.
* `include/myrmidon/base_fact.hpp` — `BaseFact<Collection>::equals` and
  `BaseFact<Collection>::isEqualUntyped`.

Modelling conventions:
* A C++ `std::any` is the inductive `AnyVal`.  The engine's comparison
  helpers implement equality only for `int`, `double`, `bool` and
  `std::string`; an empty `any` is `AnyVal.vNone` and a value of any other
  type is `AnyVal.vOther tag` (kept abstract: the helpers never look inside,
  they only fail to compare it).  Floating point values are not modelled;
  no claim depends on them.
* A C++ raw pointer argument is modelled as `Option`: `none` is `nullptr`.
* The binding environment `std::map<std::string, std::any>` is an
  association list threaded explicitly; `bindings[k] = v` is `bindInsert`,
  which mirrors the ordered-map insert-or-assign.
* `throw std::logic_error(msg)` is `Except.error msg`; normal returns are
  `Except.ok`.
-/

namespace Myrmidon

/-- Model of a `std::any` value as it flows through the engine: the variants
the comparison helpers know (`int`, `bool`, `std::string`), the empty `any`
(`vNone`), and an opaque value of any other runtime type (`vOther tag`,
identified only by its type name, which the helpers never compare). -/
inductive AnyVal where
  | vInt (n : Int)
  | vBool (b : Bool)
  | vStr (s : String)
  | vNone
  | vOther (tag : String)
deriving DecidableEq, Repr

/-- `compare_any` from `src/base_fact.cpp`: `nullopt` when either side is an
empty `any`, when the runtime types differ, or when the (shared) type has no
implemented comparison; otherwise the values' equality. -/
def compare_any (lhs rhs : AnyVal) : Option Bool :=
  match lhs, rhs with
  | .vInt a, .vInt b => some (a = b)
  | .vBool a, .vBool b => some (a = b)
  | .vStr a, .vStr b => some (a = b)
  | _, _ => none

/-- `are_anys_equal` from `src/core/rule.cpp`: the boolean collapse of
`compare_any`, `false` whenever the comparison is impossible.  The concrete
element branches of `Pattern::matches` (`fact stores concrete type`) compute
the same boolean: a type mismatch is `false`, otherwise `==`. -/
def are_anys_equal (a1 a2 : AnyVal) : Bool :=
  (compare_any a1 a2).getD false

/-- The `std::variant<std::any, std::function<bool(const std::any&)>>` a
`Constraint` stores: index 0 a value to compare, index 1 a predicate. -/
inductive ConstraintTest where
  | valueTest (v : AnyVal)
  | predTest (p : AnyVal → Bool)

/-- `Constraint` from `src/core/rule.hpp` (the C++ field `variable` is a
Lean keyword, rendered `varName`; `attribute` likewise, rendered `attr`). -/
structure Constraint where
  attr : String
  test : ConstraintTest
  varName : String
  negate : Bool

/-- `Pattern` from `src/core/rule.hpp`. -/
structure Pattern where
  factName : String
  constraints : List Constraint

/-- The payload shapes `BaseFact<FactType>` is instantiated with in the
translation units: `std::vector` (`seq`), `std::map<std::string,_>`
(`mapv`, association list with unique keys), `std::unordered_set` (`setv`,
listed in its deterministic-per-run iteration order), and the raw-pointer
`RefFact` payload (`refv`), which `Pattern::matches` does not handle. -/
inductive FactValues where
  | seq (elems : List AnyVal)
  | mapv (entries : List (String × AnyVal))
  | setv (elems : List AnyVal)
  | refv (handle : Nat)

/-- A `BaseFact`: `getName()` and `getValues()`. -/
structure Fact where
  name : String
  values : FactValues

/-- The binding environment `std::map<std::string, std::any>`. -/
def Env : Type := List (String × AnyVal)

instance : DecidableEq Env := by
  unfold Env
  infer_instance

/-- `bindings[constraint.variable] = value`: ordered-map insert-or-assign. -/
def bindInsert (env : Env) (k : String) (v : AnyVal) : Env :=
  match env with
  | [] => [(k, v)]
  | (k', v') :: rest =>
    if k < k' then (k, v) :: (k', v') :: rest
    else if k = k' then (k, v) :: rest
    else (k', v') :: bindInsert rest k v

/-- The raw test of one constraint against one candidate value: index 0
compares via the `any`-equality helpers, index 1 calls the predicate. -/
def testElement (t : ConstraintTest) (e : AnyVal) : Bool :=
  match t with
  | .valueTest v => are_anys_equal v e
  | .predTest p => p e

/-- `constraint.negate ? !testResult : testResult` — the bind/succeed
decision for one candidate value. -/
def constraintHolds (c : Constraint) (e : AnyVal) : Bool :=
  if c.negate then !(testElement c.test e) else testElement c.test e

/-- The inner element loop of the vector/set branches of `Pattern::matches`:
scan the collection, stop at the first element on which the (possibly
negated) test succeeds, bind it when the constraint names a variable, `none`
when no element satisfies the constraint. -/
def scanElems (c : Constraint) (elems : List AnyVal) (env : Env) : Option Env :=
  match elems with
  | [] => none
  | e :: rest =>
    if constraintHolds c e then
      some (if c.varName = "" then env else bindInsert env c.varName e)
    else
      scanElems c rest env

/-- `factValues.find(constraint.attribute)` on the association-list model of
`std::map<std::string, V>`. -/
def lookupMap (entries : List (String × AnyVal)) (key : String) : Option AnyVal :=
  match entries with
  | [] => none
  | (k, v) :: rest => if k = key then some v else lookupMap rest key

/-- One constraint of the map branch of `Pattern::matches`: look the
attribute up as a key; absent key fails the constraint outright; otherwise
apply the (possibly negated) test to the key's value, binding it on
success. -/
def matchMapConstraint (c : Constraint) (entries : List (String × AnyVal)) (env : Env) : Option Env :=
  match lookupMap entries c.attr with
  | none => none
  | some v =>
    if constraintHolds c v then
      some (if c.varName = "" then env else bindInsert env c.varName v)
    else none

/-- The constraint loop of the vector/set branches: every constraint must
find an element; a failing constraint returns `false` at once with whatever
bindings the earlier constraints already wrote into the caller's map. -/
def matchConstraintsSeq (cs : List Constraint) (elems : List AnyVal) (env : Env) : Bool × Env :=
  match cs with
  | [] => (true, env)
  | c :: rest =>
    match scanElems c elems env with
    | none => (false, env)
    | some env' => matchConstraintsSeq rest elems env'

/-- The constraint loop of the map branch. -/
def matchConstraintsMap (cs : List Constraint) (entries : List (String × AnyVal)) (env : Env) : Bool × Env :=
  match cs with
  | [] => (true, env)
  | c :: rest =>
    match matchMapConstraint c entries env with
    | none => (false, env)
    | some env' => matchConstraintsMap rest entries env'

/-- `Pattern::matches(fact, bindings)`: `false` for `nullptr` or a name
mismatch, then the payload-shape dispatch of the `constexpr` chain; the
unhandled `RefFact` payload falls through to `return false`.  The returned
environment is the state of the by-reference `bindings` map when the
function returns. -/
def Pattern.matches (p : Pattern) (fact : Option Fact) (env : Env) : Bool × Env :=
  match fact with
  | none => (false, env)
  | some f =>
    if f.name = p.factName then
      match f.values with
      | .seq elems => matchConstraintsSeq p.constraints elems env
      | .setv elems => matchConstraintsSeq p.constraints elems env
      | .mapv entries => matchConstraintsMap p.constraints entries env
      | .refv _ => (false, env)
    else (false, env)

/-- `NodeType` from `src/core/rule.hpp`. -/
inductive NodeType where
  | AND_NODE
  | OR_NODE
  | NOT_NODE
  | PATTERN_NODE
deriving DecidableEq, Repr

/-- `TreeNode` from `src/core/rule.hpp`: a node tag, a child list and a
pattern field that is meaningful only for `PATTERN_NODE`.  The shape keeps
the C++ representation, so a `NOT_NODE` may carry any number of children —
the arity check happens at evaluation time, exactly as in the source. -/
inductive TreeNode where
  | node (ty : NodeType) (children : List TreeNode) (pat : Pattern)

mutual

/-- `TreeNode::evaluate(facts, bindings)` from `src/core/rule.cpp` /
`src/base_fact.cpp`.  `Except.error` is the thrown `std::logic_error`; the
`Env` in the result is the state of the by-reference `bindings` map.  The
`PATTERN_NODE` case is the source's admitted dead end: it prints
`"Error: Cannot evaluate PATTERN_NODE due to BaseFact<void>* limitations."`
and returns `false` without looking at the facts. -/
def TreeNode.evaluate (t : TreeNode) (facts : List Fact) (env : Env) : Except String (Bool × Env) :=
  match t with
  | .node ty children _pat =>
    match ty with
    | .AND_NODE => evalAndChildren children facts env
    | .OR_NODE => evalOrChildren env children facts
    | .NOT_NODE =>
      match children with
      | [c] =>
        match TreeNode.evaluate c facts env with
        | .error msg => .error msg
        | .ok (b, _) => .ok (!b, env)
      | _ => .error "NOT node must have exactly one child."
    | .PATTERN_NODE => .ok (false, env)

/-- The `AND_NODE` loop: children left to right against the same threaded
`bindings`; the first child that evaluates to `false` ends the loop, with
`bindings` left exactly as that child left them (the source restores
nothing). -/
def evalAndChildren (children : List TreeNode) (facts : List Fact) (env : Env) : Except String (Bool × Env) :=
  match children with
  | [] => .ok (true, env)
  | c :: rest =>
    match TreeNode.evaluate c facts env with
    | .error msg => .error msg
    | .ok (b, env') => if b then evalAndChildren rest facts env' else .ok (false, env')

/-- The `OR_NODE` loop: every child evaluates against a fresh copy of
`originalBindings`; the first success commits its branch map and stops; when
every child fails the caller keeps `originalBindings` (`base_fact.cpp`
restores it explicitly, `rule.cpp` never touched it — same value). -/
def evalOrChildren (original : Env) (children : List TreeNode) (facts : List Fact) : Except String (Bool × Env) :=
  match children with
  | [] => .ok (false, original)
  | c :: rest =>
    match TreeNode.evaluate c facts original with
    | .error msg => .error msg
    | .ok (b, branchEnv) => if b then .ok (true, branchEnv) else evalOrChildren original rest facts

end

/-- `BaseFact<Collection>` from `include/myrmidon/base_fact.hpp`, for a
payload type `α` modelling an equality-comparable `Collection` (the branch
`detail::is_equality_comparable_v<Collection>` of `equals`; for a
non-comparable payload such as `std::vector<std::any>` the source's `equals`
falls back to comparing names only, a branch no claim depends on). -/
structure CBaseFact (α : Type) where
  name : String
  values : α

/-- `BaseFact::equals(other)`: `false` for `nullptr`, otherwise name and
payload compared structurally. -/
def CBaseFact.equals {α : Type} [BEq α] (f : CBaseFact α) (other : Option (CBaseFact α)) : Bool :=
  match other with
  | none => false
  | some o => f.name == o.name && f.values == o.values

/-- `BaseFact::isEqualUntyped(other)`: the `other` fact is known only as a
`BaseFact<std::vector<std::any>>`; `false` for `nullptr`, otherwise the
names alone are compared and the payloads ignored. -/
def CBaseFact.isEqualUntyped {α : Type} (f : CBaseFact α) (other : Option (CBaseFact (List AnyVal))) : Bool :=
  match other with
  | none => false
  | some o => f.name == o.name

/-! ### Helper lemmas about the matcher -/

/-- The element scan finds an environment exactly when some element passes
the (possibly negated) test. -/
theorem scanElems_isSome (c : Constraint) (elems : List AnyVal) (env : Env) :
    (scanElems c elems env).isSome = elems.any fun e => constraintHolds c e := by
  induction elems with
  | nil => rfl
  | cons e rest ih =>
    rw [scanElems, List.any_cons]
    split
    · next hc => rw [hc, Bool.true_or]; rfl
    · next hc =>
      rw [Bool.not_eq_true] at hc
      rw [hc, Bool.false_or, ih]

/-- The vector/set constraint loop succeeds exactly when every constraint
finds some element of the whole collection; the environment threaded in does
not influence the boolean outcome. -/
theorem matchConstraintsSeq_fst (cs : List Constraint) (elems : List AnyVal) (env : Env) :
    (matchConstraintsSeq cs elems env).1 = cs.all fun c => elems.any fun e => constraintHolds c e := by
  induction cs generalizing env with
  | nil => rfl
  | cons c rest ih =>
    rw [List.all_cons, matchConstraintsSeq]
    have hs := scanElems_isSome c elems env
    cases h : scanElems c elems env with
    | none =>
      rw [h] at hs
      simp only [Option.isSome_none] at hs
      rw [← hs, Bool.false_and]
    | some env' =>
      rw [h] at hs
      simp only [Option.isSome_some] at hs
      rw [← hs, Bool.true_and]
      exact ih env'

/-- The element scan stops at the first element that satisfies the
constraint and binds exactly that element. -/
theorem scanElems_first (c : Constraint) (pre : List AnyVal) (e0 : AnyVal) (post : List AnyVal) (env : Env)
    (hpre : ∀ e ∈ pre, constraintHolds c e = false) (he : constraintHolds c e0 = true) :
    scanElems c (pre ++ e0 :: post) env =
      some (if c.varName = "" then env else bindInsert env c.varName e0) := by
  induction pre with
  | nil => rw [List.nil_append, scanElems, if_pos he]
  | cons e rest ih =>
    rw [List.cons_append, scanElems, if_neg]
    · exact ih fun x hx => hpre x (List.mem_cons_of_mem e hx)
    · rw [hpre e (List.mem_cons_self e rest)]
      exact Bool.false_ne_true

/-- The map constraint loop succeeds exactly when every constraint's
attribute is present and its value passes the (possibly negated) test. -/
theorem matchConstraintsMap_fst (cs : List Constraint) (entries : List (String × AnyVal)) (env : Env) :
    (matchConstraintsMap cs entries env).1 =
      cs.all fun c => ((lookupMap entries c.attr).map fun v => constraintHolds c v).getD false := by
  induction cs generalizing env with
  | nil => rfl
  | cons c rest ih =>
    rw [List.all_cons, matchConstraintsMap, matchMapConstraint]
    cases hl : lookupMap entries c.attr with
    | none => simp
    | some v =>
      simp only [Option.map_some', Option.getD_some]
      by_cases hc : constraintHolds c v = true
      · rw [if_pos hc, hc, Bool.true_and]
        exact ih _
      · rw [if_neg hc]
        rw [Bool.not_eq_true] at hc
        rw [hc, Bool.false_and]

/-! ### Helper lemmas about the tree evaluator -/

mutual

/-- No evaluation path of `TreeNode::evaluate` that returns normally can
change the caller's binding map: the only node kind that would write
bindings, `PATTERN_NODE`, is the source's dead end and returns `false`
untouched, and AND/OR/NOT only thread or copy the map. -/
theorem evaluate_env_eq : ∀ (t : TreeNode) (facts : List Fact) (env : Env) (b : Bool) (env2 : Env),
    t.evaluate facts env = .ok (b, env2) → env2 = env
  | .node ty children pat, facts, env, b, env2, h => by
    cases ty with
    | AND_NODE => exact evalAnd_env_eq children facts env b env2 h
    | OR_NODE => exact evalOr_env_eq env children facts b env2 h
    | NOT_NODE =>
      cases children with
      | nil => simp [TreeNode.evaluate] at h
      | cons c rest =>
        cases rest with
        | nil =>
          rw [TreeNode.evaluate] at h
          split at h
          · simp at h
          · cases h; rfl
        | cons c2 rest2 => simp [TreeNode.evaluate] at h
    | PATTERN_NODE => cases h; rfl

/-- The AND loop never changes the caller's binding map on a normal
return. -/
theorem evalAnd_env_eq : ∀ (children : List TreeNode) (facts : List Fact) (env : Env) (b : Bool) (env2 : Env),
    evalAndChildren children facts env = .ok (b, env2) → env2 = env
  | [], _facts, _env, _b, _env2, h => by cases h; rfl
  | c :: rest, facts, env, b, env2, h => by
    rw [evalAndChildren] at h
    split at h
    · simp at h
    · next b0 env0 heq =>
      have hpe : env0 = env := evaluate_env_eq c facts env b0 env0 heq
      split at h
      · have := evalAnd_env_eq rest facts env0 b env2 h
        rw [this, hpe]
      · cases h
        exact hpe

/-- The OR loop never changes the caller's binding map on a normal
return. -/
theorem evalOr_env_eq : ∀ (original : Env) (children : List TreeNode) (facts : List Fact) (b : Bool) (env2 : Env),
    evalOrChildren original children facts = .ok (b, env2) → env2 = original
  | _original, [], _facts, _b, _env2, h => by cases h; rfl
  | original, c :: rest, facts, b, env2, h => by
    rw [evalOrChildren] at h
    split at h
    · simp at h
    · next b0 env0 heq =>
      have hpe : env0 = original := evaluate_env_eq c facts original b0 env0 heq
      split at h
      · cases h
        exact hpe
      · exact evalOr_env_eq original rest facts b env2 h

end

/-- The AND loop stops with `false` at its first failing child; the children
after it are never consulted. -/
theorem evalAnd_append_fail (pre : List TreeNode) (c : TreeNode) (post : List TreeNode)
    (facts : List Fact) (env : Env)
    (hpre : ∀ n ∈ pre, n.evaluate facts env = .ok (true, env))
    (hc : c.evaluate facts env = .ok (false, env)) :
    evalAndChildren (pre ++ c :: post) facts env = .ok (false, env) := by
  induction pre with
  | nil =>
    rw [List.nil_append, evalAndChildren, hc]
    rfl
  | cons n rest ih =>
    rw [List.cons_append, evalAndChildren, hpre n (List.mem_cons_self n rest)]
    exact ih fun x hx => hpre x (List.mem_cons_of_mem n hx)

/-- The OR loop commits the branch map of its first succeeding child; the
children after it are never consulted. -/
theorem evalOr_append_success (original : Env) (pre : List TreeNode) (c : TreeNode) (post : List TreeNode)
    (facts : List Fact) (envc : Env)
    (hpre : ∀ n ∈ pre, n.evaluate facts original = .ok (false, original))
    (hc : c.evaluate facts original = .ok (true, envc)) :
    evalOrChildren original (pre ++ c :: post) facts = .ok (true, envc) := by
  induction pre with
  | nil =>
    rw [List.nil_append, evalOrChildren, hc]
    rfl
  | cons n rest ih =>
    rw [List.cons_append, evalOrChildren, hpre n (List.mem_cons_self n rest)]
    exact ih fun x hx => hpre x (List.mem_cons_of_mem n hx)

/-- When every OR child fails, the loop returns `false` with exactly the
environment from before the OR node. -/
theorem evalOr_all_fail (original : Env) (children : List TreeNode) (facts : List Fact)
    (hall : ∀ n ∈ children, n.evaluate facts original = .ok (false, original)) :
    evalOrChildren original children facts = .ok (false, original) := by
  induction children with
  | nil => rfl
  | cons n rest ih =>
    rw [evalOrChildren, hall n (List.mem_cons_self n rest)]
    exact ih fun x hx => hall x (List.mem_cons_of_mem n hx)

/-! ### Concrete fixtures used by witnesses -/

/-- An empty existence pattern, `Pattern{factName:"p"}`. -/
def demoPattern : Pattern := ⟨"p", []⟩

/-- An AND node without children: always evaluates to `true`. -/
def demoTrueNode : TreeNode := .node .AND_NODE [] demoPattern

/-- An OR node without children: always evaluates to `false`. -/
def demoFalseNode : TreeNode := .node .OR_NODE [] demoPattern

/-! ### Claims -/

/-- Claim C1 (code side): for every PATTERN node — whatever its pattern, the
fact list and the environment — `TreeNode::evaluate` returns `false` without
consulting the facts, because the type-erased `BaseFact<void>*` fact list
cannot be handed to the typed `Pattern::matches`; yet `Pattern::matches`
itself, called directly on the same data, succeeds.  The spec's PATTERN
semantics (try every fact, succeed on the first match, commit bindings) is
therefore not what the evaluator does. -/
theorem claim_c1_pattern_node_dead_end :
    (∀ (children : List TreeNode) (pat : Pattern) (facts : List Fact) (env : Env),
      (TreeNode.node .PATTERN_NODE children pat).evaluate facts env = .ok (false, env))
    ∧ (Pattern.matches ⟨"temp", []⟩ (some ⟨"temp", .seq [.vInt 95]⟩) []).1 = true :=
  ⟨fun _ _ _ _ => rfl, rfl⟩

/-- Claim C2: an AND node evaluates its children left to right against the
threaded environment, returns `false` at the first failing child without
consulting the later children, and when it returns `false` the caller's
environment is exactly what it was before the AND node was entered. -/
theorem claim_c2_and_short_circuit :
    (∀ (pre : List TreeNode) (c : TreeNode) (post : List TreeNode) (pat : Pattern)
       (facts : List Fact) (env : Env),
      (∀ n ∈ pre, n.evaluate facts env = .ok (true, env)) →
      c.evaluate facts env = .ok (false, env) →
      (TreeNode.node .AND_NODE (pre ++ c :: post) pat).evaluate facts env = .ok (false, env))
    ∧ (∀ (children : List TreeNode) (pat : Pattern) (facts : List Fact) (env env2 : Env),
      (TreeNode.node .AND_NODE children pat).evaluate facts env = .ok (false, env2) → env2 = env) :=
  ⟨fun pre c post _pat facts env hpre hc => evalAnd_append_fail pre c post facts env hpre hc,
   fun children pat facts env env2 h =>
     evaluate_env_eq (.node .AND_NODE children pat) facts env false env2 h⟩

/-- Claim C2 witness at a concrete AND node whose second child fails. -/
theorem claim_c2_witness :
    (TreeNode.node .AND_NODE [demoTrueNode, demoFalseNode, demoTrueNode] demoPattern).evaluate [] []
      = .ok (false, []) :=
  claim_c2_and_short_circuit.1 [demoTrueNode] demoFalseNode [demoTrueNode] demoPattern [] []
    (by intro n hn; rw [List.mem_singleton] at hn; subst hn; rfl) rfl

/-- Claim C3: an OR node evaluates each child against a copy of the
environment from before the node, commits the first succeeding child's
resulting environment without consulting the later children, and when every
child fails it returns `false` with the caller's environment exactly as it
was before the OR node was entered. -/
theorem claim_c3_or_commit_first_success :
    (∀ (pre : List TreeNode) (c : TreeNode) (post : List TreeNode) (pat : Pattern)
       (facts : List Fact) (env envc : Env),
      (∀ n ∈ pre, n.evaluate facts env = .ok (false, env)) →
      c.evaluate facts env = .ok (true, envc) →
      (TreeNode.node .OR_NODE (pre ++ c :: post) pat).evaluate facts env = .ok (true, envc))
    ∧ (∀ (children : List TreeNode) (pat : Pattern) (facts : List Fact) (env : Env),
      (∀ n ∈ children, n.evaluate facts env = .ok (false, env)) →
      (TreeNode.node .OR_NODE children pat).evaluate facts env = .ok (false, env)) :=
  ⟨fun pre c post _pat facts env envc hpre hc =>
     evalOr_append_success env pre c post facts envc hpre hc,
   fun children _pat facts env hall => evalOr_all_fail env children facts hall⟩

/-- Claim C3 witness at a concrete OR node whose second child succeeds, and
one where every child fails. -/
theorem claim_c3_witness :
    ((TreeNode.node .OR_NODE [demoFalseNode, demoTrueNode, demoFalseNode] demoPattern).evaluate [] []
      = .ok (true, []))
    ∧ ((TreeNode.node .OR_NODE [demoFalseNode] demoPattern).evaluate [] [] = .ok (false, [])) :=
  ⟨claim_c3_or_commit_first_success.1 [demoFalseNode] demoTrueNode [demoFalseNode] demoPattern [] [] []
     (by intro n hn; rw [List.mem_singleton] at hn; subst hn; rfl) rfl,
   claim_c3_or_commit_first_success.2 [demoFalseNode] demoPattern [] []
     (by intro n hn; rw [List.mem_singleton] at hn; subst hn; rfl)⟩

/-- Claim C4: against a Sequence or Set payload every constraint is an
independent existential check over the whole collection — the pattern
succeeds exactly when each constraint finds some element satisfying its
(possibly negated) test, elements matched by one constraint stay candidates
for the others — and a constraint with a non-empty bind variable binds the
first element (in scan order) that satisfies it. -/
theorem claim_c4_collection_existential (p : Pattern) (f : Fact) (env : Env) (elems : List AnyVal)
    (hname : f.name = p.factName)
    (hvals : f.values = .seq elems ∨ f.values = .setv elems) :
    ((p.matches (some f) env).1 = true ↔
      ∀ c ∈ p.constraints, ∃ e ∈ elems, constraintHolds c e = true)
    ∧ (∀ (c : Constraint) (env0 : Env) (pre : List AnyVal) (e0 : AnyVal) (post : List AnyVal),
        c.varName ≠ "" → (∀ e ∈ pre, constraintHolds c e = false) → constraintHolds c e0 = true →
        scanElems c (pre ++ e0 :: post) env0 = some (bindInsert env0 c.varName e0)) := by
  constructor
  · have hm : p.matches (some f) env = matchConstraintsSeq p.constraints elems env := by
      simp only [Pattern.matches]
      cases hvals with
      | inl h => rw [if_pos hname, h]
      | inr h => rw [if_pos hname, h]
    rw [hm, matchConstraintsSeq_fst, List.all_eq_true]
    constructor
    · intro hall c hc
      have := hall c hc
      rw [List.any_eq_true] at this
      exact this
    · intro hall c hc
      rw [List.any_eq_true]
      exact hall c hc
  · intro c env0 pre e0 post hvar hpre he
    rw [scanElems_first c pre e0 post env0 hpre he, if_neg hvar]

/-- Claim C4 witness: the spec's own example — Fact
`{name:"nums", payload: Sequence([1,2,3])}` and the Pattern testing
`ValueTest(2)` with bind variable `x` — matches and binds `x = 2`, the first
(and only) matching element. -/
theorem claim_c4_witness :
    ((Pattern.matches ⟨"nums", [⟨"", .valueTest (.vInt 2), "x", false⟩]⟩
        (some ⟨"nums", .seq [.vInt 1, .vInt 2, .vInt 3]⟩) []).1 = true)
    ∧ (scanElems ⟨"", .valueTest (.vInt 2), "x", false⟩ [.vInt 1, .vInt 2, .vInt 3] []
        = some (bindInsert [] "x" (.vInt 2))) :=
  ⟨(claim_c4_collection_existential ⟨"nums", [⟨"", .valueTest (.vInt 2), "x", false⟩]⟩
      ⟨"nums", .seq [.vInt 1, .vInt 2, .vInt 3]⟩ [] [.vInt 1, .vInt 2, .vInt 3]
      rfl (Or.inl rfl)).1.mpr (by decide),
   (claim_c4_collection_existential ⟨"nums", [⟨"", .valueTest (.vInt 2), "x", false⟩]⟩
      ⟨"nums", .seq [.vInt 1, .vInt 2, .vInt 3]⟩ [] [.vInt 1, .vInt 2, .vInt 3]
      rfl (Or.inl rfl)).2 ⟨"", .valueTest (.vInt 2), "x", false⟩ [] [.vInt 1] (.vInt 2) [.vInt 3]
      (by decide) (by decide) (by decide)⟩

/-- Claim C5: against a Map payload each constraint targets exactly the one
slot named by its attribute — the pattern succeeds exactly when each
constraint's attribute is a present key whose value satisfies the (possibly
negated) test, an absent key fails the constraint outright whatever the test
or negation, and a present key's value is bound when the constraint names a
variable. -/
theorem claim_c5_map_slot (p : Pattern) (f : Fact) (env : Env) (entries : List (String × AnyVal))
    (hname : f.name = p.factName) (hvals : f.values = .mapv entries) :
    ((p.matches (some f) env).1 = true ↔
      ∀ c ∈ p.constraints, ∃ v, lookupMap entries c.attr = some v ∧ constraintHolds c v = true)
    ∧ (∀ (c : Constraint) (env0 : Env),
        lookupMap entries c.attr = none → matchMapConstraint c entries env0 = none)
    ∧ (∀ (c : Constraint) (env0 : Env) (v : AnyVal),
        c.varName ≠ "" → lookupMap entries c.attr = some v → constraintHolds c v = true →
        matchMapConstraint c entries env0 = some (bindInsert env0 c.varName v)) := by
  refine ⟨?_, ?_, ?_⟩
  · have hm : p.matches (some f) env = matchConstraintsMap p.constraints entries env := by
      simp only [Pattern.matches]
      rw [if_pos hname, hvals]
    rw [hm, matchConstraintsMap_fst, List.all_eq_true]
    constructor
    · intro hall c hc
      have := hall c hc
      cases hl : lookupMap entries c.attr with
      | none => rw [hl] at this; simp at this
      | some v =>
        rw [hl] at this
        simp only [Option.map_some', Option.getD_some] at this
        exact ⟨v, rfl, this⟩
    · intro hall c hc
      obtain ⟨v, hl, hv⟩ := hall c hc
      rw [hl]
      simp only [Option.map_some', Option.getD_some]
      exact hv
  · intro c env0 hl
    rw [matchMapConstraint, hl]
  · intro c env0 v hvar hl hv
    rw [matchMapConstraint, hl]
    dsimp only
    rw [if_pos hv, if_neg hvar]

/-- Claim C5 witness: with Fact `{name:"cfg", payload: Map({"a":1})}`, the
constraint on attribute `"a"` matches and binds its value, while a
constraint on the absent attribute `"b"` fails even when negated. -/
theorem claim_c5_witness :
    ((Pattern.matches ⟨"cfg", [⟨"a", .valueTest (.vInt 1), "y", false⟩]⟩
        (some ⟨"cfg", .mapv [("a", .vInt 1)]⟩) []).1 = true)
    ∧ (matchMapConstraint ⟨"b", .valueTest (.vInt 1), "", true⟩ [("a", .vInt 1)] [] = none)
    ∧ (matchMapConstraint ⟨"a", .valueTest (.vInt 1), "y", false⟩ [("a", .vInt 1)] []
        = some (bindInsert [] "y" (.vInt 1))) :=
  ⟨(claim_c5_map_slot ⟨"cfg", [⟨"a", .valueTest (.vInt 1), "y", false⟩]⟩
      ⟨"cfg", .mapv [("a", .vInt 1)]⟩ [] [("a", .vInt 1)] rfl rfl).1.mpr (by decide),
   (claim_c5_map_slot ⟨"cfg", []⟩ ⟨"cfg", .mapv [("a", .vInt 1)]⟩ [] [("a", .vInt 1)] rfl rfl).2.1
     ⟨"b", .valueTest (.vInt 1), "", true⟩ [] (by decide),
   (claim_c5_map_slot ⟨"cfg", []⟩ ⟨"cfg", .mapv [("a", .vInt 1)]⟩ [] [("a", .vInt 1)] rfl rfl).2.2
     ⟨"a", .valueTest (.vInt 1), "y", false⟩ [] (.vInt 1) (by decide) (by decide) (by decide)⟩

/-- Claim C6: a negated constraint with a non-empty bind variable, applied
to a candidate element, binds the variable exactly when the raw, un-negated
test on that element is `false` — negation inverts the test result before
the bind decision. -/
theorem claim_c6_negation_bind_coupling (c : Constraint)
    (hneg : c.negate = true) (hvar : c.varName ≠ "") (env : Env) (e : AnyVal) :
    scanElems c [e] env =
      if testElement c.test e = true then none else some (bindInsert env c.varName e) := by
  rw [scanElems, constraintHolds, if_pos hneg]
  cases ht : testElement c.test e with
  | true => rfl
  | false =>
    rw [if_neg hvar]
    rfl

/-- Claim C6 witness: a negated ValueTest(1) constraint scanning the single
element 5 — on which the raw test is false — binds `x = 5`. -/
theorem claim_c6_witness :
    ((⟨"", .valueTest (.vInt 1), "x", true⟩ : Constraint).negate = true)
    ∧ (("x" : String) ≠ "")
    ∧ (scanElems ⟨"", .valueTest (.vInt 1), "x", true⟩ [.vInt 5] []
        = some (bindInsert [] "x" (.vInt 5))) :=
  ⟨rfl, by decide, by
    have h := claim_c6_negation_bind_coupling ⟨"", .valueTest (.vInt 1), "x", true⟩ rfl (by decide)
      [] (.vInt 5)
    rw [h]
    decide⟩

/-- Claim C7 counterexample: the claim says every unmatchable case —
including a value-test type mismatch — resolves to "constraint not
satisfied", collapsing the whole Pattern to `false`.  But a NEGATED
value-test constraint over a type-mismatched element succeeds: comparing
the `int` test value 1 with the `string` element "a" is impossible
(`compare_any` is `nullopt`), the raw test is therefore `false`, and
negation turns that into a satisfied constraint, so the whole Pattern
evaluates to `true`. -/
theorem claim_c7_counterexample :
    (compare_any (.vInt 1) (.vStr "a") = none)
    ∧ ((Pattern.matches ⟨"f", [⟨"", .valueTest (.vInt 1), "x", true⟩]⟩
          (some ⟨"f", .seq [.vStr "a"]⟩) []).1 = true) :=
  ⟨rfl, by decide⟩

/-- Claim C7 as amended: `Pattern::matches` is a total function (no
evaluation path throws); an unmatchable value-test comparison resolves the
RAW test to `false` — so a non-negated constraint is unsatisfied while a
negated one is thereby satisfied — and an unsupported attribute access
(absent map key) or an unhandled fact payload shape fails the
constraint/pattern outright, collapsing to the boolean result `false`
rather than aborting the evaluation pass. -/
theorem claim_c7_unmatchable_raw_false :
    (∀ (v e : AnyVal), compare_any v e = none → testElement (.valueTest v) e = false)
    ∧ (∀ (c : Constraint) (e : AnyVal), c.negate = false →
        constraintHolds c e = testElement c.test e)
    ∧ (∀ (c : Constraint) (e : AnyVal), c.negate = true →
        constraintHolds c e = !(testElement c.test e))
    ∧ (∀ (p : Pattern) (f : Fact) (env : Env) (hd : Nat),
        f.values = .refv hd → p.matches (some f) env = (false, env))
    ∧ (∀ (c : Constraint) (entries : List (String × AnyVal)) (env : Env),
        lookupMap entries c.attr = none → matchMapConstraint c entries env = none) := by
  refine ⟨?_, ?_, ?_, ?_, ?_⟩
  · intro v e h
    rw [testElement, are_anys_equal, h]
    rfl
  · intro c e h
    rw [constraintHolds, if_neg]
    rw [h]
    exact Bool.false_ne_true
  · intro c e h
    rw [constraintHolds, if_pos h]
  · intro p f env hd hv
    simp only [Pattern.matches]
    rw [hv]
    split <;> rfl
  · intro c entries env hl
    rw [matchMapConstraint, hl]

/-- Claim C7 (amended) witness: each unmatchable case at concrete inputs —
an `int`-vs-`string` mismatch, a non-negated and a negated constraint over
it, a `RefFact` payload, and an absent map key. -/
theorem claim_c7_witness :
    (testElement (.valueTest (.vInt 1)) (.vStr "a") = false)
    ∧ (constraintHolds ⟨"", .valueTest (.vInt 1), "", false⟩ (.vStr "a")
        = testElement (.valueTest (.vInt 1)) (.vStr "a"))
    ∧ (constraintHolds ⟨"", .valueTest (.vInt 1), "", true⟩ (.vStr "a")
        = !(testElement (.valueTest (.vInt 1)) (.vStr "a")))
    ∧ (Pattern.matches ⟨"p", []⟩ (some ⟨"p", .refv 0⟩) [] = (false, []))
    ∧ (matchMapConstraint ⟨"b", .valueTest (.vInt 1), "", false⟩ [("a", .vInt 1)] [] = none) :=
  ⟨claim_c7_unmatchable_raw_false.1 (.vInt 1) (.vStr "a") rfl,
   claim_c7_unmatchable_raw_false.2.1 ⟨"", .valueTest (.vInt 1), "", false⟩ (.vStr "a") rfl,
   claim_c7_unmatchable_raw_false.2.2.1 ⟨"", .valueTest (.vInt 1), "", true⟩ (.vStr "a") rfl,
   claim_c7_unmatchable_raw_false.2.2.2.1 ⟨"p", []⟩ ⟨"p", .refv 0⟩ [] 0 rfl,
   claim_c7_unmatchable_raw_false.2.2.2.2 ⟨"b", .valueTest (.vInt 1), "", false⟩
     [("a", .vInt 1)] [] rfl⟩

/-- Claim C8: a NOT node with exactly one child returns the logical negation
of the child's result and hands the caller back its own environment
untouched (the child ran on a throwaway copy, so bindings made inside the
NOT subtree never escape); a NOT node with any other child count fails with
the thrown `std::logic_error` — a construction-error path, not a normal
`false`. -/
theorem claim_c8_not_node :
    (∀ (c : TreeNode) (pat : Pattern) (facts : List Fact) (env : Env) (b : Bool) (env2 : Env),
      c.evaluate facts env = .ok (b, env2) →
      (TreeNode.node .NOT_NODE [c] pat).evaluate facts env = .ok (!b, env))
    ∧ (∀ (children : List TreeNode) (pat : Pattern) (facts : List Fact) (env : Env),
      children.length ≠ 1 →
      (TreeNode.node .NOT_NODE children pat).evaluate facts env
        = .error "NOT node must have exactly one child.") := by
  constructor
  · intro c pat facts env b env2 h
    rw [show (TreeNode.node .NOT_NODE [c] pat).evaluate facts env
          = (match c.evaluate facts env with
             | .error msg => .error msg
             | .ok (bb, _) => .ok (!bb, env)) from rfl, h]
  · intro children pat facts env hlen
    cases children with
    | nil => rfl
    | cons c rest =>
      cases rest with
      | nil => exact absurd rfl hlen
      | cons c2 rest2 => rfl

/-- Claim C8 witness: NOT of a failing child evaluates to `true` with the
environment unchanged, and NOT nodes with zero or two children produce the
construction error. -/
theorem claim_c8_witness :
    ((TreeNode.node .NOT_NODE [demoFalseNode] demoPattern).evaluate [] [] = .ok (true, []))
    ∧ ((TreeNode.node .NOT_NODE [] demoPattern).evaluate [] []
        = .error "NOT node must have exactly one child.") :=
  ⟨claim_c8_not_node.1 demoFalseNode demoPattern [] [] false [] rfl,
   claim_c8_not_node.2 [] demoPattern [] [] (by decide)⟩

/-- Claim C9: `isEqualUntyped` is true exactly when the two facts' names are
equal, ignoring the payloads entirely, and it is deliberately looser than
the typed `equals`, which compares name and payload — witnessed by two facts
of equal name and different payload that `equals` rejects while the
name-only comparison accepts. -/
theorem claim_c9_untyped_names_only :
    (∀ (α : Type) (f : CBaseFact α) (o : CBaseFact (List AnyVal)),
      f.isEqualUntyped (some o) = (f.name == o.name))
    ∧ (∀ (α : Type) (b : BEq α) (f g : CBaseFact α),
      f.equals (some g) = (f.name == g.name && f.values == g.values))
    ∧ (CBaseFact.equals (⟨"a", [1]⟩ : CBaseFact (List Int)) (some ⟨"a", [2]⟩) = false)
    ∧ (CBaseFact.isEqualUntyped (⟨"a", [1]⟩ : CBaseFact (List Int)) (some ⟨"a", []⟩) = true) :=
  ⟨fun _ _ _ => rfl, fun _ _ _ _ => rfl, by decide, by decide⟩

/-- Claim C10: every comparison or matching entry point given a null fact
pointer answers `false` without touching anything: `Pattern::matches`
returns `false` with the environment unchanged, and `equals` /
`isEqualUntyped` return `false`. -/
theorem claim_c10_null_fact_safe :
    (∀ (p : Pattern) (env : Env), p.matches none env = (false, env))
    ∧ (∀ (α : Type) (b : BEq α) (f : CBaseFact α), f.equals none = false)
    ∧ (∀ (α : Type) (f : CBaseFact α), f.isEqualUntyped none = false) :=
  ⟨fun _ _ => rfl, fun _ _ _ => rfl, fun _ _ => rfl⟩

end Myrmidon
